import Mathlib

/-
  Shallow embedding of the deferred GPU compute task graph library
  (bevy-node-plumber): provider readiness aggregation (graph.rs),
  the compute-node readiness state machine (node/compute.rs), the
  descriptor-keyed resource cache (resource.rs / node/compute.rs),
  the sub-graph merge step and runner node (graph.rs), and the
  asynchronous output readback state machine (node/output.rs).

  External collaborator types (bevy_render / wgpu) are modelled as
  small value types: device resources carry a numeric identity, the
  render device is a fresh-identity counter, and hash maps are
  association lists with replace-on-insert semantics.
-/

namespace NodePlumber

/-! ### Association-map helpers (model of bevy `HashMap`) -/

def mapLookup {α β : Type} [DecidableEq α] : List (α × β) → α → Option β
  | [], _ => none
  | (k', v) :: m, k => if k' = k then some v else mapLookup m k

def mapRemove {α β : Type} [DecidableEq α] : List (α × β) → α → List (α × β)
  | [], _ => []
  | (k', v) :: m, k => if k' = k then mapRemove m k else (k', v) :: mapRemove m k

def mapInsert {α β : Type} [DecidableEq α] (m : List (α × β)) (k : α) (v : β) :
    List (α × β) :=
  (k, v) :: mapRemove m k

/-! ### graph.rs: provider descriptors and readiness aggregation -/

/-- `ProviderState` from src/graph.rs: the coarse projection of a provider's
readiness used for sub-graph level aggregation. -/
inductive ProviderState
  | Created
  | Updating
  | CanCreateNode
  | Err (msg : String)
deriving DecidableEq

def ProviderState.isErr : ProviderState → Bool
  | .Err _ => true
  | _ => false

/-- `ProviderDescriptor` from src/graph.rs (the `TypeId` field is modelled as
a numeric type identity). -/
structure ProviderDescriptor where
  name : String
  ty : Nat
  state : ProviderState
deriving DecidableEq

/-- Loop body of `SubGraph::providers_state_summary` (src/graph.rs:85-109):
iterates over the provider map accumulating the `has_created` /
`has_updating` flags, returning the first `Err` encountered; after the loop,
`Created` is checked before `Updating`, and `CanCreateNode` is the fallback. -/
def summaryLoop : List (Nat × ProviderDescriptor) → Bool → Bool → ProviderState
  | [], has_created, has_updating =>
    if has_created then .Created
    else if has_updating then .Updating
    else .CanCreateNode
  | (_, descriptor) :: rest, has_created, has_updating =>
    match descriptor.state with
    | .Updating => summaryLoop rest has_created true
    | .Created => summaryLoop rest true has_updating
    | .Err err => .Err err
    | .CanCreateNode => summaryLoop rest has_created has_updating

/-! ### bevy_render slot model (external types `SlotType` / `SlotInfo`) -/

inductive SlotType
  | Buffer
  | TextureView
  | Sampler
  | Entity
deriving DecidableEq

structure SlotInfo where
  name : String
  slot_type : SlotType
deriving DecidableEq

/-- Model of the embryonic `RenderGraph` held by a queued sub-graph: only its
input node's slot declarations are observed by the core
(`graph.input_node().input_slots`). -/
structure RenderSubGraph where
  input_slots : List SlotInfo
deriving DecidableEq

/-- `Edge` from src/graph.rs; node and slot labels are modelled by name. -/
inductive Edge
  | InputSlotEdge (output_node : String) (output_slot : String) (input_slot : String)
  | InputNodeEdge (output_node : String)
  | OutputNodeEdge (input_node : String)
deriving DecidableEq

/-- `SubGraphDeployState` from src/graph.rs. -/
inductive SubGraphDeployState
  | Queued (edges : List Edge) (graph : RenderSubGraph)
  | MovedToRenderWorld
  | Deployed
deriving DecidableEq

/-- `SubGraphTrigger` from src/graph.rs; the `Arc<AtomicBool>` of the
`Manual` variant is modelled by the boolean value it currently holds. -/
inductive SubGraphTrigger
  | Always
  | Manual (flag : Bool)
deriving DecidableEq

/-- `SubGraph` from src/graph.rs; the `HashMap<Entity, ProviderDescriptor>`
is modelled as an association list in iteration order. -/
structure SubGraph where
  name : String
  providers : List (Nat × ProviderDescriptor)
  graph : SubGraphDeployState
  trigger : SubGraphTrigger
deriving DecidableEq

/-- `SubGraph::providers_state_summary` (src/graph.rs:85-109). -/
def SubGraph.providers_state_summary (self : SubGraph) : ProviderState :=
  summaryLoop self.providers false false

/-- Message of the first `Err` provider in iteration order, if any. -/
def firstErr : List (Nat × ProviderDescriptor) → Option String
  | [] => none
  | (_, d) :: rest =>
    match d.state with
    | .Err err => some err
    | _ => firstErr rest

def ProviderState.isCreated : ProviderState → Bool
  | .Created => true
  | _ => false

def ProviderState.isUpdating : ProviderState → Bool
  | .Updating => true
  | _ => false

def anyCreated (l : List (Nat × ProviderDescriptor)) : Bool :=
  l.any fun p => p.2.state.isCreated

def anyUpdating (l : List (Nat × ProviderDescriptor)) : Bool :=
  l.any fun p => p.2.state.isUpdating

/-- Concrete sub-graph whose provider set holds one `Updating` and one
`Created` provider (and no `Err` provider). -/
def mixedSubGraph : SubGraph :=
  { name := "sg"
    providers :=
      [(0, { name := "a", ty := 0, state := .Updating }),
       (1, { name := "b", ty := 0, state := .Created })]
    graph := .Deployed
    trigger := .Always }

/-- Concrete sub-graph with every provider in state `CanCreateNode`. -/
def allReadySubGraph : SubGraph :=
  { name := "ready"
    providers :=
      [(0, { name := "a", ty := 0, state := .CanCreateNode }),
       (1, { name := "b", ty := 0, state := .CanCreateNode })]
    graph := .Deployed
    trigger := .Always }

/-- Concrete sub-graph holding one `Err` provider among others. -/
def oneErrSubGraph : SubGraph :=
  { name := "err"
    providers :=
      [(0, { name := "a", ty := 0, state := .CanCreateNode }),
       (1, { name := "b", ty := 0, state := .Err "boom" })]
    graph := .Deployed
    trigger := .Always }

/-! ### graph.rs: runner node, live render graph, and the merge step -/

/-- `SubGraphRunnerNode` from src/graph.rs. -/
structure SubGraphRunnerNode where
  sub_graph_name : String
  node_inputs : List SlotInfo
  trigger : SubGraphTrigger
deriving DecidableEq

/-- Model of the live bevy `RenderGraph` as observed by this crate: named
sub-graphs, named runner nodes, and the recorded edge insertions. -/
structure RenderGraphModel where
  sub_graphs : List (String × RenderSubGraph)
  nodes : List (String × SubGraphRunnerNode)
  slot_edges : List ((String × String) × (String × String))
  node_edges : List (String × String)
deriving DecidableEq

def RenderGraphModel.add_sub_graph (rg : RenderGraphModel) (name : String)
    (g : RenderSubGraph) : RenderGraphModel :=
  { rg with sub_graphs := rg.sub_graphs ++ [(name, g)] }

def RenderGraphModel.add_node (rg : RenderGraphModel) (name : String)
    (node : SubGraphRunnerNode) : RenderGraphModel :=
  { rg with nodes := rg.nodes ++ [(name, node)] }

def RenderGraphModel.add_slot_edge (rg : RenderGraphModel)
    (output_node output_slot input_node input_slot : String) : RenderGraphModel :=
  { rg with
    slot_edges := rg.slot_edges ++ [((output_node, output_slot), (input_node, input_slot))] }

def RenderGraphModel.add_node_edge (rg : RenderGraphModel)
    (output_node input_node : String) : RenderGraphModel :=
  { rg with node_edges := rg.node_edges ++ [(output_node, input_node)] }

def RenderGraphModel.get_sub_graph (rg : RenderGraphModel) (name : String) :
    Option RenderSubGraph :=
  mapLookup rg.sub_graphs name

/-- Edge resolution loop of `SubGraphCache::update` (src/graph.rs:169-188):
each buffered outer edge is resolved into the live graph against the runner
node's name. -/
def addEdges (node_name : String) : RenderGraphModel → List Edge → RenderGraphModel
  | rg, [] => rg
  | rg, .InputSlotEdge output_node output_slot input_slot :: rest =>
    addEdges node_name (rg.add_slot_edge output_node output_slot node_name input_slot) rest
  | rg, .InputNodeEdge output_node :: rest =>
    addEdges node_name (rg.add_node_edge output_node node_name) rest
  | rg, .OutputNodeEdge input_node :: rest =>
    addEdges node_name (rg.add_node_edge node_name input_node) rest

/-- Per-sub-graph body of `SubGraphCache::update` (src/graph.rs:150-189):
a queued sub-graph whose aggregate provider state is `CanCreateNode` is
spliced into the live graph (named sub-graph registered, runner node added,
buffered outer edges resolved) and its deploy state becomes `Deployed`;
otherwise nothing happens. -/
def updateOne (sg : SubGraph) (rg : RenderGraphModel) :
    SubGraph × RenderGraphModel :=
  match sg.graph with
  | .Queued edges graph =>
    if sg.providers_state_summary = .CanCreateNode then
      let runner : SubGraphRunnerNode :=
        { sub_graph_name := sg.name
          node_inputs := graph.input_slots
          trigger := sg.trigger }
      ({ sg with graph := .Deployed },
       addEdges sg.name ((rg.add_sub_graph sg.name graph).add_node sg.name runner) edges)
    else (sg, rg)
  | _ => (sg, rg)

/-- `SubGraphCache::update` (src/graph.rs:147-191): iterates the cached
sub-graphs in order, applying the per-sub-graph merge step while threading
the live render graph. -/
def SubGraphCache.update :
    List (Nat × SubGraph) → RenderGraphModel →
      List (Nat × SubGraph) × RenderGraphModel
  | [], rg => ([], rg)
  | (e, sg) :: rest, rg =>
    ((e, (updateOne sg rg).1) ::
        (SubGraphCache.update rest (updateOne sg rg).2).1,
     (SubGraphCache.update rest (updateOne sg rg).2).2)

/-- The empty live render graph. -/
def emptyRenderGraph : RenderGraphModel :=
  { sub_graphs := [], nodes := [], slot_edges := [], node_edges := [] }

/-- A sub-graph whose deploy state is already `Deployed`. -/
def deployedSubGraph : SubGraph :=
  { name := "done", providers := [], graph := .Deployed, trigger := .Always }


/-! ### wgpu resource model (external device types) -/

structure Buffer where
  id : Nat
  size : Nat
deriving DecidableEq

structure Sampler where
  id : Nat
deriving DecidableEq

structure Texture where
  id : Nat
deriving DecidableEq

structure TextureView where
  id : Nat
deriving DecidableEq

/-- The render device, modelled as a fresh-identity counter: each created
resource receives the next identity. -/
structure RenderDevice where
  next_id : Nat
deriving DecidableEq

structure BufferDescriptor where
  label : Option String
  size : Nat
  usage : Nat
  mapped_at_creation : Bool
deriving DecidableEq

/-- External `SamplerDescriptor`, modelled as an opaque value with decidable
equality. -/
structure SamplerDescriptor where
  value : Nat
deriving DecidableEq

/-- External `TextureDescriptor`, modelled as an opaque value with decidable
equality. -/
structure TextureDescriptor where
  value : Nat
deriving DecidableEq

def RenderDevice.create_buffer (dev : RenderDevice)
    (descriptor : BufferDescriptor) : Buffer × RenderDevice :=
  ({ id := dev.next_id, size := descriptor.size }, { next_id := dev.next_id + 1 })

def RenderDevice.create_sampler (dev : RenderDevice)
    (_descriptor : SamplerDescriptor) : Sampler × RenderDevice :=
  ({ id := dev.next_id }, { next_id := dev.next_id + 1 })

def RenderDevice.create_texture (dev : RenderDevice)
    (_descriptor : TextureDescriptor) : Texture × RenderDevice :=
  ({ id := dev.next_id }, { next_id := dev.next_id + 1 })

def Texture.create_view (_t : Texture) (dev : RenderDevice) :
    TextureView × RenderDevice :=
  ({ id := dev.next_id }, { next_id := dev.next_id + 1 })

def BufferUsages.MAP_READ : Nat := 1

def BufferUsages.COPY_DST : Nat := 8

/-! ### node/output.rs: asynchronous output readback -/

/-- `OutputError` from src/node/output.rs. -/
inductive OutputError
  | MappedBufferNotFound
  | CannotLock
  | AsyncMapError
  | BufferReadWriteError
deriving DecidableEq

/-- `OutputBufferState` from src/node/output.rs. -/
inductive OutputBufferState
  | NotCreated
  | ReadyToMap (buffer : Buffer)
  | WaitingForMap (buffer : Buffer)
  | Mapped (buffer : Buffer)
  | MappingError
deriving DecidableEq

/-- `OutputBuffer::take_buffer` (src/node/output.rs:52-67). The
mutex-protected state cell is modelled by passing the lock outcome
explicitly: `locked = true` models a contended non-blocking `try_lock`.
Returns the result together with the state left in the cell. -/
def OutputBuffer.take_buffer (locked : Bool) (state : OutputBufferState) :
    Except OutputError Buffer × OutputBufferState :=
  if locked then (.error .CannotLock, state)
  else
    match state with
    | .Mapped buffer => (.ok buffer, .NotCreated)
    | s => (.error .MappedBufferNotFound, s)

/-- `OutputBuffer::create_output_buffer` (src/node/output.rs:139-146). -/
def OutputBuffer.create_output_buffer (render_device : RenderDevice)
    (size : Nat) : Buffer × RenderDevice :=
  render_device.create_buffer
    { label := some "output_buffer"
      size := size
      usage := Nat.lor BufferUsages.COPY_DST BufferUsages.MAP_READ
      mapped_at_creation := false }

/-- Observable result of one execution of the `OutputBuffer` render-graph
node: the state cell afterwards, the device, the copy commands enqueued
(source id, destination id, size) and the ids of buffers unmapped. -/
structure OutputRunResult where
  state : OutputBufferState
  device : RenderDevice
  copies : List (Nat × Nat × Nat)
  unmaps : List Nat
deriving DecidableEq

/-- `render_graph::Node::run` for `OutputBuffer` (src/node/output.rs:88-135):
a buffer held as `Mapped` is unmapped and considered for reuse, one held as
`ReadyToMap` is considered directly; the candidate is reused when its size
equals the input buffer's size, otherwise a new buffer is created; the
buffer-to-buffer copy is enqueued and the state becomes `ReadyToMap`. -/
def OutputBuffer.run (input : Buffer) (state : OutputBufferState)
    (render_device : RenderDevice) : OutputRunResult :=
  let size := input.size
  let unmaps : List Nat :=
    match state with
    | .Mapped buffer => [buffer.id]
    | _ => []
  let candidate : Option Buffer :=
    match state with
    | .NotCreated => none
    | .Mapped buffer => some buffer
    | .MappingError => none
    | .ReadyToMap buffer => some buffer
    | .WaitingForMap _ => none
  let pair :=
    match candidate with
    | some b =>
      if b.size = size then (b, render_device)
      else OutputBuffer.create_output_buffer render_device size
    | none => OutputBuffer.create_output_buffer render_device size
  { state := .ReadyToMap pair.1
    device := pair.2
    copies := [(input.id, pair.1.id, size)]
    unmaps := unmaps }

/-- The buffer-map completion callback registered by
`OutputBuffer::map_output_buffers` (src/node/output.rs:162-174): the state
cell is first replaced by `NotCreated`; only when the replaced state was
`WaitingForMap` is a new state installed (`Mapped` on success,
`MappingError` on failure); any other state is left as `NotCreated`. -/
def OutputBuffer.map_callback (result_ok : Bool) (state : OutputBufferState) :
    OutputBufferState :=
  match state with
  | .WaitingForMap buffer =>
    if result_ok then .Mapped buffer else .MappingError
  | _ => .NotCreated


/-! ### bevy_render run-time context and error model -/

/-- `SlotValue` from bevy_render, over the modelled resource types. -/
inductive SlotValue
  | Buffer (buffer : Buffer)
  | TextureView (view : TextureView)
  | Sampler (sampler : Sampler)
  | Entity (entity : Nat)
deriving DecidableEq

/-- `RenderGraphContext` as observed by the embedded code: the named input
slot values supplied to the running node. -/
structure RenderGraphContext where
  inputs : List (String × SlotValue)

/-- `NodeRunError` variants produced by the embedded code (bevy_render
error payloads reduced to their identifying data). -/
inductive NodeRunError
  | InputSlotError (slot : String)
  | OutputSlotError (slot : Nat)
  | MissingInput (slot_index : Nat) (slot_name : String) (graph_name : String)
deriving DecidableEq

/-! ### resource.rs: bind resource descriptors and the resource cache -/

/-- `BindResourceCreationStrategy` from src/resource.rs. -/
inductive BindResourceCreationStrategy (T : Type)
  | Static (v : T)
  | FromGraphContext (f : RenderGraphContext → T)

/-- `BindResourceCreationDescriptor` from src/resource.rs. -/
inductive BindResourceCreationDescriptor
  | Buffer (b : BindResourceCreationStrategy BufferDescriptor)
  | Sampler (s : BindResourceCreationStrategy SamplerDescriptor)
  | Texture (t : BindResourceCreationStrategy TextureDescriptor)

/-- `StaticBindResourceCreationDescriptor` from src/resource.rs. -/
inductive StaticBindResourceCreationDescriptor
  | Buffer (b : BufferDescriptor)
  | Sampler (s : SamplerDescriptor)
  | Texture (t : TextureDescriptor)
deriving DecidableEq

/-- `OwnBindResource` from src/resource.rs. -/
inductive OwnBindResource
  | Buffer (buffer : Buffer)
  | Sampler (sampler : Sampler)
  | Texture (texture : Texture) (view : TextureView)
deriving DecidableEq

/-- The device identities a created resource holds. -/
def OwnBindResource.ids : OwnBindResource → List Nat
  | .Buffer b => [b.id]
  | .Sampler s => [s.id]
  | .Texture t v => [t.id, v.id]

/-- `StaticBindResourceCreationDescriptor::create_resource`
(src/resource.rs:32-46); a texture additionally receives a default view. -/
def StaticBindResourceCreationDescriptor.create_resource :
    StaticBindResourceCreationDescriptor → RenderDevice →
      OwnBindResource × RenderDevice
  | .Buffer buffer_descriptor, render_device =>
    let created := render_device.create_buffer buffer_descriptor
    (.Buffer created.1, created.2)
  | .Sampler sampler_descriptor, render_device =>
    let created := render_device.create_sampler sampler_descriptor
    (.Sampler created.1, created.2)
  | .Texture texture_descriptor, render_device =>
    let texture := render_device.create_texture texture_descriptor
    let default_view := texture.1.create_view texture.2
    (.Texture texture.1 default_view.1, default_view.2)

/-- `BindResourceCreationDescriptor::into_static` (src/resource.rs:50-74):
static descriptors pass through, context-dependent ones are resolved
against the graph context. -/
def BindResourceCreationDescriptor.into_static :
    BindResourceCreationDescriptor → RenderGraphContext →
      StaticBindResourceCreationDescriptor
  | .Buffer b, graph_context =>
    .Buffer (match b with
      | .Static s => s
      | .FromGraphContext f => f graph_context)
  | .Sampler s, graph_context =>
    .Sampler (match s with
      | .Static s => s
      | .FromGraphContext f => f graph_context)
  | .Texture t, graph_context =>
    .Texture (match t with
      | .Static s => s
      | .FromGraphContext f => f graph_context)

/-- `BindResourceCreationDescriptor::to_slot_type` (src/resource.rs:76-82). -/
def BindResourceCreationDescriptor.to_slot_type :
    BindResourceCreationDescriptor → SlotType
  | .Buffer _ => .Buffer
  | .Sampler _ => .Sampler
  | .Texture _ => .TextureView

/-- `BindResourceDirection` from src/resource.rs. -/
inductive BindResourceDirection
  | Input (slot_type : SlotType)
  | Output (descriptor : BindResourceCreationDescriptor)
  | InputOutput (slot_type : SlotType)

/-- `BindResourceCreationInfo` from src/resource.rs. -/
structure BindResourceCreationInfo where
  name : String
  binding : Nat
  direction : BindResourceDirection

/-! ### node/compute.rs: the compute node readiness state machine -/

/-- External `ComputePipelineDescriptor`; the core observes its
caller-declared bind group layouts (modelled by identity) and carries the
rest opaquely. -/
structure ComputePipelineDescriptor where
  label : Option String
  layout : List Nat
  shader : Nat
  entry_point : String
deriving DecidableEq

/-- Status of a queued compile job as matched by
`ComputeNode::update_state`: a finished compute pipeline, a failure, or
anything else (the `_ => return` arm: still queued or creating). -/
inductive CachedPipelineState
  | Ok (pipeline : Nat)
  | Err (msg : String)
  | Pending
deriving DecidableEq

/-- External `PipelineCache` collaborator: queueing a descriptor returns a
job id, polling returns the job status, and a compiled pipeline reflects a
bind-group layout at an index. -/
structure PipelineCacheModel where
  queue_compute_pipeline : ComputePipelineDescriptor → Nat
  get_compute_pipeline_state : Nat → CachedPipelineState
  get_bind_group_layout : Nat → Nat → Nat

/-- `DispatchWorkgroupsStrategy` from src/node/compute.rs. -/
inductive DispatchWorkgroupsStrategy
  | Static (x y z : Nat)
  | FromGraphContext (f : RenderGraphContext → Nat × Nat × Nat)

/-- `ComputeNodeImpl` from src/node/compute.rs; the
`Arc<Mutex<HashMap<usize, _>>>` resource cache is modelled as an
association list. -/
structure ComputeNodeImpl where
  label : Option String
  bind_group_index : Nat
  layout : Nat
  pipeline : Nat
  bind_resource_info : List BindResourceCreationInfo
  bind_resource_cache :
    List (Nat × (StaticBindResourceCreationDescriptor × OwnBindResource))
  input_slots : List SlotInfo
  output_slots : List SlotInfo
  dispatch_workgroups_strategy : DispatchWorkgroupsStrategy

/-- `ComputeNodeState` from src/node/compute.rs. -/
inductive ComputeNodeState
  | Creating (pipeline_descriptor : ComputePipelineDescriptor)
  | PipelineQueued (pipeline_descriptor : ComputePipelineDescriptor)
      (pipeline_id : Nat)
  | PipelineCached (layout : Nat) (pipeline : Nat)
  | ReadyToRun (node : ComputeNodeImpl)
  | Err (msg : String)

/-- `ComputeNode` from src/node/compute.rs. -/
structure ComputeNode where
  label : Option String
  bind_group_index : Nat
  state : ComputeNodeState
  binding_resource_info : List BindResourceCreationInfo
  dispatch_workgroups_strategy : DispatchWorkgroupsStrategy

/-- Slot-derivation loop of the `PipelineCached` arm of
`ComputeNode::update_state` (src/node/compute.rs:310-338): each bind
resource contributes to the input and/or output slot vectors in list
order. -/
def computeNodeSlots :
    List BindResourceCreationInfo → List SlotInfo × List SlotInfo →
      List SlotInfo × List SlotInfo
  | [], acc => acc
  | bind_resource_info :: rest, (input_slots, output_slots) =>
    match bind_resource_info.direction with
    | .Input slot_type =>
      computeNodeSlots rest
        (input_slots ++ [{ name := bind_resource_info.name, slot_type := slot_type }],
         output_slots)
    | .Output bind_resource_descriptor =>
      computeNodeSlots rest
        (input_slots,
         output_slots ++ [{ name := bind_resource_info.name,
                            slot_type := bind_resource_descriptor.to_slot_type }])
    | .InputOutput slot_type =>
      computeNodeSlots rest
        (input_slots ++ [{ name := bind_resource_info.name, slot_type := slot_type }],
         output_slots ++ [{ name := bind_resource_info.name, slot_type := slot_type }])

/-- `ComputeNode::update_state` (src/node/compute.rs:273-359): one tick of
the readiness state machine. `Creating` queues the pipeline; `PipelineQueued`
polls the compile job (advancing on success, failing on error, returning
unchanged otherwise); `PipelineCached` derives the slot lists and builds the
executable implementation; `ReadyToRun` and `Err` return unchanged. -/
def ComputeNode.update_state (pipeline_cache : PipelineCacheModel)
    (n : ComputeNode) : ComputeNode :=
  match n.state with
  | .Creating pipeline =>
    { n with state :=
        .PipelineQueued pipeline (pipeline_cache.queue_compute_pipeline pipeline) }
  | .PipelineQueued descriptor pipeline_id =>
    match pipeline_cache.get_compute_pipeline_state pipeline_id with
    | .Ok pipeline =>
      { n with state := (.PipelineCached
          ((descriptor.layout.get? n.bind_group_index).getD
            (pipeline_cache.get_bind_group_layout pipeline n.bind_group_index))
          pipeline) }
    | .Err err => { n with state := .Err err }
    | .Pending => n
  | .PipelineCached layout pipeline =>
    { n with state := (.ReadyToRun
        { label := n.label
          bind_group_index := n.bind_group_index
          layout := layout
          pipeline := pipeline
          bind_resource_info := n.binding_resource_info
          bind_resource_cache := []
          input_slots := (computeNodeSlots n.binding_resource_info ([], [])).1
          output_slots := (computeNodeSlots n.binding_resource_info ([], [])).2
          dispatch_workgroups_strategy := n.dispatch_workgroups_strategy }) }
  | .ReadyToRun _ => n
  | .Err _ => n

/-! ### node.rs: the placeholder (dummy) node -/

/-- `DummyNode` from src/node.rs. -/
structure DummyNode where
  input : List SlotInfo
  output : List SlotInfo

/-- Loop of `DummyNode::from_bind_resource_info` (src/node.rs:19-38); the
`InputOutput` arm pushes the output slot before the input slot. -/
def dummyNodeLoop : List BindResourceCreationInfo → DummyNode → DummyNode
  | [], slf => slf
  | i :: rest, slf =>
    match i.direction with
    | .Input input =>
      dummyNodeLoop rest
        { slf with input := slf.input ++ [{ name := i.name, slot_type := input }] }
    | .Output output =>
      dummyNodeLoop rest
        { slf with output := slf.output ++
            [{ name := i.name, slot_type := output.to_slot_type }] }
    | .InputOutput input_output =>
      dummyNodeLoop rest
        { slf with
          output := slf.output ++ [{ name := i.name, slot_type := input_output }],
          input := slf.input ++ [{ name := i.name, slot_type := input_output }] }

/-- `DummyNode::from_bind_resource_info` (src/node.rs:19-38). -/
def DummyNode.from_bind_resource_info
    (info : List BindResourceCreationInfo) : DummyNode :=
  dummyNodeLoop info { input := [], output := [] }

/-- `ComputeNodeImpl::get_output_resource` (src/node/compute.rs:190-223);
`NodeResources::get_output_resource` (src/resource.rs:247-280) has the
identical body. Returns the resource together with the updated cache (the
in-place mutation of the shared map) and the device. -/
def ComputeNodeImpl.get_output_resource (self : ComputeNodeImpl) (index : Nat)
    (graph : RenderGraphContext) (render_device : RenderDevice) :
    Except NodeRunError OwnBindResource × ComputeNodeImpl × RenderDevice :=
  match self.bind_resource_info.get? index with
  | some info =>
    match info.direction with
    | .Output descriptor =>
      let static_descriptor := descriptor.into_static graph
      match mapLookup self.bind_resource_cache index with
      | some (cached_static_descriptor, cached_resource) =>
        if cached_static_descriptor = static_descriptor then
          (.ok cached_resource, self, render_device)
        else
          let created := static_descriptor.create_resource render_device
          (.ok created.1,
           { self with bind_resource_cache :=
              mapInsert self.bind_resource_cache index (static_descriptor, created.1) },
           created.2)
      | none =>
        let created := static_descriptor.create_resource render_device
        (.ok created.1,
         { self with bind_resource_cache :=
            mapInsert self.bind_resource_cache index (static_descriptor, created.1) },
         created.2)
    | _ => (.error (.OutputSlotError index), self, render_device)
  | none => (.error (.OutputSlotError index), self, render_device)

/-- All resource identities stored in an implementation cache are below the
device next fresh identity. -/
def cacheFresh (self : ComputeNodeImpl) (dev : RenderDevice) : Prop :=
  ∀ k d r, mapLookup self.bind_resource_cache k = some (d, r) →
    ∀ i ∈ r.ids, i < dev.next_id

/-- A pipeline cache whose every poll result is still pending. -/
def pendingPipelineCache : PipelineCacheModel :=
  { queue_compute_pipeline := fun _ => 0
    get_compute_pipeline_state := fun _ => .Pending
    get_bind_group_layout := fun _ _ => 0 }

/-- A minimal compute pipeline descriptor. -/
def simplePipelineDescriptor : ComputePipelineDescriptor :=
  { label := none, layout := [], shader := 0, entry_point := "main" }

/-- A compute node waiting on a queued pipeline compile job. -/
def queuedComputeNode : ComputeNode :=
  { label := some "n"
    bind_group_index := 0
    state := .PipelineQueued simplePipelineDescriptor 0
    binding_resource_info := []
    dispatch_workgroups_strategy := .Static 1 1 1 }

/-- A compute node whose pipeline descriptor is not yet queued. -/
def creatingComputeNode : ComputeNode :=
  { label := some "n"
    bind_group_index := 0
    state := .Creating simplePipelineDescriptor
    binding_resource_info := []
    dispatch_workgroups_strategy := .Static 1 1 1 }


/-- A bind resource list with one input, one output and one in-out slot. -/
def sampleBindResourceInfo : List BindResourceCreationInfo :=
  [{ name := "inp", binding := 0, direction := .Input .Buffer },
   { name := "out", binding := 1,
     direction := .Output (.Buffer (.Static
       { label := none, size := 1024, usage := 0, mapped_at_creation := false })) },
   { name := "io", binding := 2, direction := .InputOutput .TextureView }]

/-- A compute node holding a cached pipeline, about to build its
implementation. -/
def cachedComputeNode : ComputeNode :=
  { label := some "n"
    bind_group_index := 0
    state := .PipelineCached 0 0
    binding_resource_info := sampleBindResourceInfo
    dispatch_workgroups_strategy := .Static 1 1 1 }

/-- The implementation `update_state` builds for `cachedComputeNode`. -/
def cachedComputeNodeImpl : ComputeNodeImpl :=
  { label := some "n"
    bind_group_index := 0
    layout := 0
    pipeline := 0
    bind_resource_info := sampleBindResourceInfo
    bind_resource_cache := []
    input_slots := (computeNodeSlots sampleBindResourceInfo ([], [])).1
    output_slots := (computeNodeSlots sampleBindResourceInfo ([], [])).2
    dispatch_workgroups_strategy := .Static 1 1 1 }

/-- A static buffer output descriptor. -/
def staticOutDescriptor : BindResourceCreationDescriptor :=
  .Buffer (.Static { label := none, size := 1024, usage := 0, mapped_at_creation := false })

/-- An implementation with a single `Output` bind resource and an empty
resource cache. -/
def outputOnlyImpl : ComputeNodeImpl :=
  { label := none
    bind_group_index := 0
    layout := 0
    pipeline := 0
    bind_resource_info :=
      [{ name := "out", binding := 0, direction := .Output staticOutDescriptor }]
    bind_resource_cache := []
    input_slots := []
    output_slots := []
    dispatch_workgroups_strategy := .Static 1 1 1 }

/-- A graph context with no inputs. -/
def emptyGraphContext : RenderGraphContext := { inputs := [] }

/-- The buffer created by the first `get_output_resource` call on
`outputOnlyImpl` with a fresh device. -/
def firstCreatedResource : OwnBindResource := .Buffer { id := 0, size := 1024 }

/-- `outputOnlyImpl` after its first `get_output_resource` call. -/
def outputOnlyImplCached : ComputeNodeImpl :=
  { outputOnlyImpl with bind_resource_cache :=
      [(0, (staticOutDescriptor.into_static emptyGraphContext, firstCreatedResource))] }


/-! ### graph.rs: runner node execution (trigger gate and input forwarding) -/

/-- `RenderGraphContext::get_input` (external): look up a named input slot
value, failing with an input slot error. -/
def RenderGraphContext.get_input (graph : RenderGraphContext) (name : String) :
    Except NodeRunError SlotValue :=
  match mapLookup graph.inputs name with
  | some value => .ok value
  | none => .error (.InputSlotError name)

/-- Outcome of one `SubGraphRunnerNode::run` (src/graph.rs:206-259): the
run result, the trigger afterwards (the shared manual flag after the atomic
swap), and the input values passed to `run_sub_graph` when the sub-graph
was invoked (`none` when it was not). -/
structure RunOutcome where
  result : Except NodeRunError Unit
  trigger : SubGraphTrigger
  ran_sub_graph : Option (List SlotValue)

/-- Input-gathering loop of `SubGraphRunnerNode::run` (src/graph.rs:229-234):
each declared node input is looked up in the graph context and inserted
into the `sub_graph_inputs` map; a missing input aborts the run. -/
def gatherInputs (graph : RenderGraphContext) :
    List SlotInfo → List (String × SlotValue) →
      Except NodeRunError (List (String × SlotValue))
  | [], acc => .ok acc
  | node_input :: rest, acc =>
    match graph.get_input node_input.name with
    | .ok value => gatherInputs graph rest (mapInsert acc node_input.name value)
    | .error e => .error e

/-- Ordered input-value collection of `SubGraphRunnerNode::run`
(src/graph.rs:240-252): values are removed from the gathered map in the
sub-graph's own slot order; a missing name is a fatal `MissingInput` naming
the sub-graph and slot. -/
def collectInputValues (graph_name : String) :
    Nat → List SlotInfo → List (String × SlotValue) →
      Except NodeRunError (List SlotValue)
  | _, [], _ => .ok []
  | index, info :: rest, sub_graph_inputs =>
    match mapLookup sub_graph_inputs info.name with
    | some value =>
      match collectInputValues graph_name (index + 1) rest
          (mapRemove sub_graph_inputs info.name) with
      | .ok values => .ok (value :: values)
      | .error e => .error e
    | none => .error (.MissingInput index info.name graph_name)

/-- Body of `SubGraphRunnerNode::run` after the trigger gate
(src/graph.rs:222-258): gather the node inputs by name, then forward them
into the sub-graph's input slots by name; a missing sub-graph is only a
warning and the run returns `Ok` without invoking anything. -/
def SubGraphRunnerNode.run_body (node : SubGraphRunnerNode)
    (render_graph : RenderGraphModel) (graph : RenderGraphContext)
    (trigger_after : SubGraphTrigger) : RunOutcome :=
  match gatherInputs graph node.node_inputs [] with
  | .error e => { result := .error e, trigger := trigger_after, ran_sub_graph := none }
  | .ok sub_graph_inputs =>
    match render_graph.get_sub_graph node.sub_graph_name with
    | some sub_graph =>
      match collectInputValues node.sub_graph_name 0 sub_graph.input_slots
          sub_graph_inputs with
      | .ok input_values =>
        { result := .ok (), trigger := trigger_after,
          ran_sub_graph := some input_values }
      | .error e =>
        { result := .error e, trigger := trigger_after, ran_sub_graph := none }
    | none =>
      { result := .ok (), trigger := trigger_after, ran_sub_graph := none }

/-- `SubGraphRunnerNode::run` (src/graph.rs:206-259): a `Manual` trigger
performs an atomic test-and-clear (`swap(false)`), skipping the run with
`Ok` when the flag was already clear; `Always` proceeds unconditionally. -/
def SubGraphRunnerNode.run (node : SubGraphRunnerNode)
    (render_graph : RenderGraphModel) (graph : RenderGraphContext) : RunOutcome :=
  match node.trigger with
  | .Manual flag =>
    if flag then node.run_body render_graph graph (.Manual false)
    else { result := .ok (), trigger := .Manual false, ran_sub_graph := none }
  | .Always => node.run_body render_graph graph .Always

/-- A deployed sub-graph with a single buffer input slot. -/
def runnerSubGraph : RenderSubGraph :=
  { input_slots := [{ name := "x", slot_type := .Buffer }] }

/-- A live render graph holding `runnerSubGraph` under the name `sg1`. -/
def runnerRenderGraph : RenderGraphModel :=
  { sub_graphs := [("sg1", runnerSubGraph)], nodes := [],
    slot_edges := [], node_edges := [] }

/-- A runner node for `sg1` whose manual trigger flag is set. -/
def manualRunnerNode : SubGraphRunnerNode :=
  { sub_graph_name := "sg1", node_inputs := runnerSubGraph.input_slots,
    trigger := .Manual true }

/-- A graph context supplying the single input of `runnerSubGraph`. -/
def runnerContext : RenderGraphContext :=
  { inputs := [("x", .Buffer { id := 5, size := 4 })] }

/-! ### Theorems -/

theorem mapLookup_mapRemove {α β : Type} [DecidableEq α] (m : List (α × β)) (k k' : α) :
    mapLookup (mapRemove m k) k' = if k' = k then none else mapLookup m k' := by
  induction m with
  | nil => simp [mapRemove, mapLookup]
  | cons p m ih =>
    obtain ⟨a, b⟩ := p
    by_cases hk : k' = k
    · subst hk
      by_cases hak : a = k'
      · simp [mapRemove, hak, ih]
      · simp [mapRemove, mapLookup, hak, ih]
    · by_cases hak : a = k
      · have hak' : a ≠ k' := fun h => hk ((hak.symm.trans h).symm)
        simp [mapRemove, mapLookup, hak, hak', ih, hk, Ne.symm hk]
      · by_cases hak' : a = k'
        · simp [mapRemove, mapLookup, hak, hak', ih, hk]
        · simp [mapRemove, mapLookup, hak, hak', ih, hk]

theorem mapLookup_mapInsert_self {α β : Type} [DecidableEq α]
    (m : List (α × β)) (k : α) (v : β) :
    mapLookup (mapInsert m k v) k = some v := by
  simp [mapInsert, mapLookup]

theorem mapLookup_mapInsert_ne {α β : Type} [DecidableEq α]
    (m : List (α × β)) (k k' : α) (v : β) (h : k' ≠ k) :
    mapLookup (mapInsert m k v) k' = mapLookup m k' := by
  simp [mapInsert, mapLookup, Ne.symm h, mapLookup_mapRemove, h]

theorem summaryLoop_eq (l : List (Nat × ProviderDescriptor)) (hc hu : Bool) :
    summaryLoop l hc hu =
      match firstErr l with
      | some m => .Err m
      | none =>
        if hc || anyCreated l then .Created
        else if hu || anyUpdating l then .Updating
        else .CanCreateNode := by
  induction l generalizing hc hu with
  | nil => cases hc <;> cases hu <;> simp [summaryLoop, firstErr, anyCreated, anyUpdating]
  | cons p rest ih =>
    obtain ⟨e, d⟩ := p
    cases hd : d.state with
    | Created =>
      simp only [summaryLoop, hd, ih, firstErr, anyCreated, anyUpdating, List.any_cons,
        ProviderState.isCreated, ProviderState.isUpdating]
      cases firstErr rest
      · simp only [Bool.false_or, Bool.true_or, Bool.or_true, if_pos, if_neg]
      · rfl
    | Updating =>
      simp only [summaryLoop, hd, ih, firstErr, anyCreated, anyUpdating, List.any_cons,
        ProviderState.isCreated, ProviderState.isUpdating]
      cases firstErr rest
      · simp only [Bool.false_or, Bool.true_or, Bool.or_true, if_pos, if_neg]
      · rfl
    | CanCreateNode =>
      simp only [summaryLoop, hd, ih, firstErr, anyCreated, anyUpdating, List.any_cons,
        ProviderState.isCreated, ProviderState.isUpdating]
      cases firstErr rest
      · simp only [Bool.false_or, Bool.true_or, Bool.or_true, if_pos, if_neg]
      · rfl
    | Err m =>
      simp [summaryLoop, hd, firstErr]

theorem ProviderState.isCreated_iff (s : ProviderState) :
    s.isCreated = true ↔ s = .Created := by
  cases s <;> simp [ProviderState.isCreated]

theorem ProviderState.isUpdating_iff (s : ProviderState) :
    s.isUpdating = true ↔ s = .Updating := by
  cases s <;> simp [ProviderState.isUpdating]

theorem anyCreated_iff (l : List (Nat × ProviderDescriptor)) :
    anyCreated l = true ↔ ∃ p ∈ l, p.2.state = .Created := by
  simp [anyCreated, List.any_eq_true, ProviderState.isCreated_iff]

theorem anyUpdating_iff (l : List (Nat × ProviderDescriptor)) :
    anyUpdating l = true ↔ ∃ p ∈ l, p.2.state = .Updating := by
  simp [anyUpdating, List.any_eq_true, ProviderState.isUpdating_iff]

theorem firstErr_eq_none_iff (l : List (Nat × ProviderDescriptor)) :
    firstErr l = none ↔ ∀ p ∈ l, p.2.state.isErr = false := by
  induction l with
  | nil => simp [firstErr]
  | cons p rest ih =>
    obtain ⟨e, d⟩ := p
    cases hd : d.state <;> simp [firstErr, hd, ih, ProviderState.isErr]

theorem summary_can_create_iff_flags (sg : SubGraph) :
    sg.providers_state_summary = .CanCreateNode ↔
      firstErr sg.providers = none ∧ anyCreated sg.providers = false ∧
        anyUpdating sg.providers = false := by
  rw [SubGraph.providers_state_summary, summaryLoop_eq]
  cases hfe : firstErr sg.providers <;>
    cases hc : anyCreated sg.providers <;>
      cases hu : anyUpdating sg.providers <;> simp

/-- Claim C1 (counterexample): a sub-graph whose provider set contains no
`Err` provider and at least one `Updating` provider, yet
`providers_state_summary` does not return `Updating` — it returns `Created`,
because the source checks the `has_created` flag before `has_updating`. -/
theorem providers_summary_updating_precedence_cex :
    (∀ p ∈ mixedSubGraph.providers, p.2.state.isErr = false) ∧
    (∃ p ∈ mixedSubGraph.providers, p.2.state = .Updating) ∧
    mixedSubGraph.providers_state_summary ≠ .Updating ∧
    mixedSubGraph.providers_state_summary = .Created := by
  decide

/-- Claim C1 (amended): for every sub-graph whose provider set contains no
provider in state `Err`, if at least one provider's coarse state is
`Created` then `providers_state_summary` returns `Created`; only when no
provider is `Created` and at least one is `Updating` does it return
`Updating` (`Created` takes precedence over `Updating` in the aggregate). -/
theorem providers_summary_created_precedence (sg : SubGraph)
    (hne : ∀ p ∈ sg.providers, p.2.state.isErr = false) :
    ((∃ p ∈ sg.providers, p.2.state = .Created) →
        sg.providers_state_summary = .Created) ∧
    ((∀ p ∈ sg.providers, p.2.state ≠ .Created) →
      (∃ p ∈ sg.providers, p.2.state = .Updating) →
        sg.providers_state_summary = .Updating) := by
  have hfe : firstErr sg.providers = none := (firstErr_eq_none_iff _).mpr hne
  constructor
  · intro hex
    have hc : anyCreated sg.providers = true := (anyCreated_iff _).mpr hex
    simp [SubGraph.providers_state_summary, summaryLoop_eq, hfe, hc]
  · intro hnc hex
    have hc : anyCreated sg.providers = false := by
      cases hval : anyCreated sg.providers with
      | false => rfl
      | true =>
        obtain ⟨p, hp, hps⟩ := (anyCreated_iff _).mp hval
        exact absurd hps (hnc p hp)
    have hu : anyUpdating sg.providers = true := (anyUpdating_iff _).mpr hex
    simp [SubGraph.providers_state_summary, summaryLoop_eq, hfe, hc, hu]

/-- Witness for the amended claim C1 at a concrete sub-graph. -/
theorem providers_summary_created_precedence_witness :
    mixedSubGraph.providers_state_summary = .Created :=
  (providers_summary_created_precedence mixedSubGraph (by decide)).1 (by decide)

/-- Claim C3: `providers_state_summary` returns `CanCreateNode` iff every
participating provider's coarse state is `CanCreateNode`; and if any single
provider's state is `Err`, the aggregate is an `Err` regardless of the
other providers' states. -/
theorem providers_summary_can_create_iff (sg : SubGraph) :
    (sg.providers_state_summary = .CanCreateNode ↔
      ∀ p ∈ sg.providers, p.2.state = .CanCreateNode) ∧
    (∀ e d msg, (e, d) ∈ sg.providers → d.state = .Err msg →
      ∃ m, sg.providers_state_summary = .Err m) := by
  constructor
  · rw [summary_can_create_iff_flags]
    constructor
    · rintro ⟨hfe, hc, hu⟩ p hp
      cases hs : p.2.state with
      | CanCreateNode => rfl
      | Created => exact absurd ((anyCreated_iff _).mpr ⟨p, hp, hs⟩) (by simp [hc])
      | Updating => exact absurd ((anyUpdating_iff _).mpr ⟨p, hp, hs⟩) (by simp [hu])
      | Err m =>
        have := (firstErr_eq_none_iff _).mp hfe p hp
        simp [ProviderState.isErr, hs] at this
    · intro hall
      refine ⟨(firstErr_eq_none_iff _).mpr ?_, ?_, ?_⟩
      · intro p hp
        simp [hall p hp, ProviderState.isErr]
      · cases hval : anyCreated sg.providers with
        | false => rfl
        | true =>
          obtain ⟨p, hp, hps⟩ := (anyCreated_iff _).mp hval
          rw [hall p hp] at hps
          exact absurd hps (by decide)
      · cases hval : anyUpdating sg.providers with
        | false => rfl
        | true =>
          obtain ⟨p, hp, hps⟩ := (anyUpdating_iff _).mp hval
          rw [hall p hp] at hps
          exact absurd hps (by decide)
  · intro e d msg hmem hstate
    have hne : firstErr sg.providers ≠ none := by
      intro h
      have := (firstErr_eq_none_iff _).mp h (e, d) hmem
      simp [ProviderState.isErr, hstate] at this
    obtain ⟨m, hm⟩ := Option.ne_none_iff_exists'.mp hne
    exact ⟨m, by rw [SubGraph.providers_state_summary, summaryLoop_eq, hm]⟩

/-- Witness for claim C3 at concrete sub-graphs. -/
theorem providers_summary_can_create_iff_witness :
    allReadySubGraph.providers_state_summary = .CanCreateNode ∧
    ∃ m, oneErrSubGraph.providers_state_summary = .Err m :=
  ⟨(providers_summary_can_create_iff allReadySubGraph).1.mpr (by decide),
   (providers_summary_can_create_iff oneErrSubGraph).2 1
     { name := "b", ty := 0, state := .Err "boom" } "boom" (by decide) rfl⟩

theorem updateOne_stable (sg : SubGraph) (rg rg2 : RenderGraphModel) :
    updateOne (updateOne sg rg).1 rg2 = ((updateOne sg rg).1, rg2) := by
  cases hg : sg.graph with
  | Queued edges graph =>
    by_cases hs : sg.providers_state_summary = .CanCreateNode
    · simp [updateOne, hg, hs]
    · simp [updateOne, hg, hs]
  | MovedToRenderWorld => simp [updateOne, hg]
  | Deployed => simp [updateOne, hg]

/-- Claim C4: the `Queued` to `Deployed` transition performed by the merge
step happens at most once per sub-graph: once the deploy state is `Deployed`
or `MovedToRenderWorld` the merge step leaves both the sub-graph and the
live render graph unchanged, and re-running the whole merge pass after it
already ran is the identity (the merge is idempotent). -/
theorem sub_graph_cache_update_idempotent (cache : List (Nat × SubGraph))
    (rg : RenderGraphModel) :
    (SubGraphCache.update (SubGraphCache.update cache rg).1
        (SubGraphCache.update cache rg).2 = SubGraphCache.update cache rg) ∧
    (∀ sg rg', sg.graph = .Deployed ∨ sg.graph = .MovedToRenderWorld →
        updateOne sg rg' = (sg, rg')) := by
  constructor
  · induction cache generalizing rg with
    | nil => simp [SubGraphCache.update]
    | cons p rest ih =>
      obtain ⟨e, sg⟩ := p
      simp only [SubGraphCache.update, updateOne_stable, ih]
  · intro sg rg' h
    rcases h with h | h <;> simp [updateOne, h]

/-- Witness for claim C4 at a concrete deployed sub-graph. -/
theorem sub_graph_cache_update_idempotent_witness :
    updateOne deployedSubGraph emptyRenderGraph
      = (deployedSubGraph, emptyRenderGraph) :=
  (sub_graph_cache_update_idempotent [] emptyRenderGraph).2 deployedSubGraph
    emptyRenderGraph (Or.inl rfl)

/-- Claim C5: `take_buffer` fails with `CannotLock` when the state lock is
contended; fails with `MappedBufferNotFound` when the state is not `Mapped`,
leaving the state unchanged; and when the state is `Mapped buffer` it
returns that buffer and resets the state to `NotCreated`, so the same mapped
buffer is taken at most once and a second take before any new run fails
with `MappedBufferNotFound`. -/
theorem take_buffer_spec (locked : Bool) (state : OutputBufferState) :
    (locked = true →
      OutputBuffer.take_buffer locked state = (.error .CannotLock, state)) ∧
    (locked = false → (∀ b, state ≠ .Mapped b) →
      OutputBuffer.take_buffer locked state
        = (.error .MappedBufferNotFound, state)) ∧
    (locked = false → ∀ b, state = .Mapped b →
      OutputBuffer.take_buffer locked state = (.ok b, .NotCreated) ∧
      OutputBuffer.take_buffer false (OutputBuffer.take_buffer locked state).2
        = (.error .MappedBufferNotFound, .NotCreated)) := by
  refine ⟨?_, ?_, ?_⟩
  · intro h
    simp [OutputBuffer.take_buffer, h]
  · intro h hnm
    cases hs : state with
    | Mapped b => exact absurd hs (hnm b)
    | NotCreated => simp [OutputBuffer.take_buffer, h]
    | ReadyToMap b => simp [OutputBuffer.take_buffer, h]
    | WaitingForMap b => simp [OutputBuffer.take_buffer, h]
    | MappingError => simp [OutputBuffer.take_buffer, h]
  · intro h b hb
    subst hb
    subst h
    exact ⟨rfl, rfl⟩

/-- Witness for claim C5 at a concrete mapped state. -/
theorem take_buffer_spec_witness :
    OutputBuffer.take_buffer false (.Mapped { id := 7, size := 16 })
        = (.ok { id := 7, size := 16 }, .NotCreated) ∧
      OutputBuffer.take_buffer false
          (OutputBuffer.take_buffer false (.Mapped { id := 7, size := 16 })).2
        = (.error .MappedBufferNotFound, .NotCreated) :=
  (take_buffer_spec false (.Mapped { id := 7, size := 16 })).2.2 rfl
    { id := 7, size := 16 } rfl

/-- Claim C9: one execution of the output readback node reuses an existing
readback buffer exactly when the state holds it as `ReadyToMap` or `Mapped`
(a `Mapped` buffer being unmapped first) and its size equals the input
buffer's size; otherwise a fresh buffer of that size is allocated; in every
case the copy from the input buffer is enqueued and the final state is
`ReadyToMap` holding the buffer that was written. -/
theorem output_buffer_run_spec (input : Buffer) (state : OutputBufferState)
    (dev : RenderDevice) :
    (∀ b, state = .ReadyToMap b → b.size = input.size →
      OutputBuffer.run input state dev =
        { state := .ReadyToMap b, device := dev,
          copies := [(input.id, b.id, input.size)], unmaps := [] }) ∧
    (∀ b, state = .Mapped b → b.size = input.size →
      OutputBuffer.run input state dev =
        { state := .ReadyToMap b, device := dev,
          copies := [(input.id, b.id, input.size)], unmaps := [b.id] }) ∧
    ((∀ b, state = .ReadyToMap b ∨ state = .Mapped b → b.size ≠ input.size) →
      (OutputBuffer.run input state dev).state =
          .ReadyToMap (OutputBuffer.create_output_buffer dev input.size).1 ∧
        (OutputBuffer.run input state dev).device =
          (OutputBuffer.create_output_buffer dev input.size).2) ∧
    (∃ b, (OutputBuffer.run input state dev).state = .ReadyToMap b ∧
      b.size = input.size ∧
      (OutputBuffer.run input state dev).copies = [(input.id, b.id, input.size)]) := by
  refine ⟨?_, ?_, ?_, ?_⟩
  · intro b hb hsize
    subst hb
    simp [OutputBuffer.run, hsize]
  · intro b hb hsize
    subst hb
    simp [OutputBuffer.run, hsize]
  · intro hmis
    cases hs : state with
    | NotCreated => exact ⟨rfl, rfl⟩
    | MappingError => exact ⟨rfl, rfl⟩
    | WaitingForMap b => exact ⟨rfl, rfl⟩
    | ReadyToMap b =>
      have hne : b.size ≠ input.size := hmis b (Or.inl hs)
      subst hs
      simp [OutputBuffer.run, hne]
    | Mapped b =>
      have hne : b.size ≠ input.size := hmis b (Or.inr hs)
      subst hs
      simp [OutputBuffer.run, hne]
  · cases hs : state with
    | NotCreated =>
      exact ⟨(OutputBuffer.create_output_buffer dev input.size).1, rfl, rfl, rfl⟩
    | MappingError =>
      exact ⟨(OutputBuffer.create_output_buffer dev input.size).1, rfl, rfl, rfl⟩
    | WaitingForMap b =>
      exact ⟨(OutputBuffer.create_output_buffer dev input.size).1, rfl, rfl, rfl⟩
    | ReadyToMap b =>
      by_cases hsize : b.size = input.size
      · subst hs
        refine ⟨b, ?_, hsize, ?_⟩ <;> simp [OutputBuffer.run, hsize]
      · subst hs
        refine ⟨(OutputBuffer.create_output_buffer dev input.size).1, ?_, rfl, ?_⟩ <;>
          simp [OutputBuffer.run, hsize]
    | Mapped b =>
      by_cases hsize : b.size = input.size
      · subst hs
        refine ⟨b, ?_, hsize, ?_⟩ <;> simp [OutputBuffer.run, hsize]
      · subst hs
        refine ⟨(OutputBuffer.create_output_buffer dev input.size).1, ?_, rfl, ?_⟩ <;>
          simp [OutputBuffer.run, hsize]

/-- Witness for claim C9: a concrete reuse of a `ReadyToMap` buffer of
matching size. -/
theorem output_buffer_run_spec_witness :
    OutputBuffer.run { id := 1, size := 4 } (.ReadyToMap { id := 3, size := 4 })
        { next_id := 10 } =
      { state := .ReadyToMap { id := 3, size := 4 }, device := { next_id := 10 },
        copies := [(1, 3, 4)], unmaps := [] } :=
  (output_buffer_run_spec { id := 1, size := 4 }
      (.ReadyToMap { id := 3, size := 4 }) { next_id := 10 }).1
    { id := 3, size := 4 } rfl rfl

/-- Claim C10: the buffer-map completion callback turns `WaitingForMap b`
into `Mapped b` on success and into `MappingError` on failure; a state that
is anything other than `WaitingForMap` is unconditionally replaced by
`NotCreated`, discarding whatever buffer that state held. -/
theorem map_callback_spec (result_ok : Bool) (state : OutputBufferState) :
    (∀ b, state = .WaitingForMap b →
      OutputBuffer.map_callback result_ok state =
        if result_ok then .Mapped b else .MappingError) ∧
    ((∀ b, state ≠ .WaitingForMap b) →
      OutputBuffer.map_callback result_ok state = .NotCreated) := by
  constructor
  · intro b hb
    subst hb
    rfl
  · intro h
    cases hs : state with
    | WaitingForMap b => exact absurd hs (h b)
    | NotCreated => rfl
    | ReadyToMap b => rfl
    | Mapped b => rfl
    | MappingError => rfl

/-- Witness for claim C10 at concrete states: a waiting buffer is mapped on
success, and a `ReadyToMap` state from a newer run is discarded. -/
theorem map_callback_spec_witness :
    OutputBuffer.map_callback true (.WaitingForMap { id := 2, size := 8 })
        = .Mapped { id := 2, size := 8 } ∧
      OutputBuffer.map_callback true (.ReadyToMap { id := 9, size := 8 })
        = .NotCreated := by
  constructor
  · have h := (map_callback_spec true (.WaitingForMap { id := 2, size := 8 })).1
      { id := 2, size := 8 } rfl
    simpa using h
  · exact (map_callback_spec true (.ReadyToMap { id := 9, size := 8 })).2
      (by intro b h; simp at h)

/-- Claim C2 (counterexample): a provider in the non-terminal state
`PipelineQueued` whose compile job is still pending performs zero stage
transitions on a tick — the node is returned unchanged — refuting that
every tick of a non-terminal provider advances exactly one stage. -/
theorem update_state_pending_no_transition_cex :
    queuedComputeNode.state = .PipelineQueued simplePipelineDescriptor 0 ∧
      ComputeNode.update_state pendingPipelineCache queuedComputeNode
        = queuedComputeNode :=
  ⟨rfl, rfl⟩

/-- Claim C2 (amended): one tick performs at most one stage transition and
never skips or regresses: `Creating` always advances to `PipelineQueued`;
`PipelineQueued` advances to `PipelineCached` when the compiler reports
success and to `Err` on failure, but is left unchanged while the compile
job is pending; `PipelineCached` always advances to `ReadyToRun`;
`ReadyToRun` and `Err` are left unchanged. -/
theorem update_state_step_characterization (pc : PipelineCacheModel)
    (n : ComputeNode) :
    (∀ d, n.state = .Creating d →
      (ComputeNode.update_state pc n).state
        = .PipelineQueued d (pc.queue_compute_pipeline d)) ∧
    (∀ d i, n.state = .PipelineQueued d i →
      (∀ p, pc.get_compute_pipeline_state i = .Ok p →
        (ComputeNode.update_state pc n).state
          = .PipelineCached
              ((d.layout.get? n.bind_group_index).getD
                (pc.get_bind_group_layout p n.bind_group_index)) p) ∧
      (∀ m, pc.get_compute_pipeline_state i = .Err m →
        (ComputeNode.update_state pc n).state = .Err m) ∧
      (pc.get_compute_pipeline_state i = .Pending →
        ComputeNode.update_state pc n = n)) ∧
    (∀ l p, n.state = .PipelineCached l p →
      (ComputeNode.update_state pc n).state
        = .ReadyToRun
            { label := n.label
              bind_group_index := n.bind_group_index
              layout := l
              pipeline := p
              bind_resource_info := n.binding_resource_info
              bind_resource_cache := []
              input_slots := (computeNodeSlots n.binding_resource_info ([], [])).1
              output_slots := (computeNodeSlots n.binding_resource_info ([], [])).2
              dispatch_workgroups_strategy := n.dispatch_workgroups_strategy }) ∧
    (∀ impl, n.state = .ReadyToRun impl → ComputeNode.update_state pc n = n) ∧
    (∀ m, n.state = .Err m → ComputeNode.update_state pc n = n) := by
  refine ⟨?_, ?_, ?_, ?_, ?_⟩
  · intro d h
    simp [ComputeNode.update_state, h]
  · intro d i h
    refine ⟨?_, ?_, ?_⟩
    · intro p hp
      simp [ComputeNode.update_state, h, hp]
    · intro m hm
      simp [ComputeNode.update_state, h, hm]
    · intro hpend
      simp [ComputeNode.update_state, h, hpend]
  · intro l p h
    simp [ComputeNode.update_state, h]
  · intro impl h
    simp [ComputeNode.update_state, h]
  · intro m h
    simp [ComputeNode.update_state, h]

/-- Witness for the amended claim C2: a `Creating` node advances to
`PipelineQueued` in one tick. -/
theorem update_state_step_characterization_witness :
    (ComputeNode.update_state pendingPipelineCache creatingComputeNode).state
      = .PipelineQueued simplePipelineDescriptor
          (pendingPipelineCache.queue_compute_pipeline simplePipelineDescriptor) :=
  (update_state_step_characterization pendingPipelineCache creatingComputeNode).1
    simplePipelineDescriptor rfl

theorem computeNodeSlots_eq_dummy (info : List BindResourceCreationInfo)
    (i o : List SlotInfo) :
    computeNodeSlots info (i, o)
      = ((dummyNodeLoop info { input := i, output := o }).input,
         (dummyNodeLoop info { input := i, output := o }).output) := by
  induction info generalizing i o with
  | nil => rfl
  | cons b rest ih =>
    cases hb : b.direction with
    | Input slot_type => simp [computeNodeSlots, dummyNodeLoop, hb, ih]
    | Output d => simp [computeNodeSlots, dummyNodeLoop, hb, ih]
    | InputOutput slot_type => simp [computeNodeSlots, dummyNodeLoop, hb, ih]

/-- Claim C8: the placeholder node built from a `BindResourceInfo` list
declares exactly the same input and output slot shape (names and slot
types, in the same order) as the real compute node implementation that
`update_state` derives from the same list. -/
theorem dummy_node_slot_shape_matches_impl (pc : PipelineCacheModel)
    (n : ComputeNode) (layout pipeline : Nat) (impl : ComputeNodeImpl)
    (h : n.state = .PipelineCached layout pipeline)
    (himpl : (ComputeNode.update_state pc n).state = .ReadyToRun impl) :
    impl.input_slots
        = (DummyNode.from_bind_resource_info n.binding_resource_info).input ∧
      impl.output_slots
        = (DummyNode.from_bind_resource_info n.binding_resource_info).output := by
  rw [ComputeNode.update_state] at himpl
  rw [h] at himpl
  simp only [ComputeNodeState.ReadyToRun.injEq] at himpl
  subst himpl
  rw [DummyNode.from_bind_resource_info]
  constructor
  · exact congrArg Prod.fst (computeNodeSlots_eq_dummy n.binding_resource_info [] [])
  · exact congrArg Prod.snd (computeNodeSlots_eq_dummy n.binding_resource_info [] [])

/-- Witness for claim C8 at a concrete bind resource list. -/
theorem dummy_node_slot_shape_matches_impl_witness :
    cachedComputeNodeImpl.input_slots
        = (DummyNode.from_bind_resource_info
            cachedComputeNode.binding_resource_info).input ∧
      cachedComputeNodeImpl.output_slots
        = (DummyNode.from_bind_resource_info
            cachedComputeNode.binding_resource_info).output :=
  dummy_node_slot_shape_matches_impl pendingPipelineCache cachedComputeNode 0 0
    cachedComputeNodeImpl rfl rfl

theorem create_resource_ids (d : StaticBindResourceCreationDescriptor)
    (dev : RenderDevice) :
    (∀ i ∈ (d.create_resource dev).1.ids,
        dev.next_id ≤ i ∧ i < (d.create_resource dev).2.next_id) ∧
      dev.next_id ≤ (d.create_resource dev).2.next_id := by
  cases d <;>
    simp +arith [StaticBindResourceCreationDescriptor.create_resource,
      RenderDevice.create_buffer, RenderDevice.create_sampler,
      RenderDevice.create_texture, Texture.create_view, OwnBindResource.ids]

theorem ids_ne_nil (r : OwnBindResource) : r.ids ≠ [] := by
  cases r <;> simp [OwnBindResource.ids]

theorem resource_ne_of_ids (r1 r2 : OwnBindResource) (N : Nat)
    (h1 : ∀ i ∈ r1.ids, i < N) (h2 : ∀ i ∈ r2.ids, N ≤ i) : r2 ≠ r1 := by
  intro h
  subst h
  obtain ⟨i, hi⟩ := List.exists_mem_of_ne_nil r2.ids (ids_ne_nil r2)
  have hlt := h1 i hi
  have hge := h2 i hi
  omega

theorem get_output_resource_eq (impl : ComputeNodeImpl) (index : Nat)
    (g : RenderGraphContext) (dev : RenderDevice)
    (info : BindResourceCreationInfo) (d : BindResourceCreationDescriptor)
    (hget : impl.bind_resource_info.get? index = some info)
    (hdir : info.direction = .Output d) :
    impl.get_output_resource index g dev =
      match mapLookup impl.bind_resource_cache index with
      | some (cd, cr) =>
        if cd = d.into_static g then (.ok cr, impl, dev)
        else
          (.ok ((d.into_static g).create_resource dev).1,
           { impl with bind_resource_cache := (mapInsert impl.bind_resource_cache
              index (d.into_static g, ((d.into_static g).create_resource dev).1)) },
           ((d.into_static g).create_resource dev).2)
      | none =>
        (.ok ((d.into_static g).create_resource dev).1,
         { impl with bind_resource_cache := (mapInsert impl.bind_resource_cache
            index (d.into_static g, ((d.into_static g).create_resource dev).1)) },
         ((d.into_static g).create_resource dev).2) := by
  have hget2 : impl.bind_resource_info[index]? = some info := by
    rw [← List.get?_eq_getElem?]
    exact hget
  cases hl : mapLookup impl.bind_resource_cache index with
  | none =>
    simp [ComputeNodeImpl.get_output_resource, hget2, hdir, hl]
  | some p =>
    obtain ⟨cd, cr⟩ := p
    by_cases hcd : cd = d.into_static g
    · simp [ComputeNodeImpl.get_output_resource, hget2, hdir, hl, hcd]
    · simp [ComputeNodeImpl.get_output_resource, hget2, hdir, hl, hcd,
        Ne.symm hcd]

/-- Claim C7: for an `Output` bind resource ordinal, after a first call
returns an instance, a second call whose resolved concrete descriptor is
value-equal to the cached one returns the same cached instance and leaves
the cache and device unchanged (a cache hit); a call whose resolved
descriptor differs in any field creates a new instance and replaces the
cache entry, so the old instance is no longer returned by later lookups at
that ordinal. -/
theorem get_output_resource_cache_spec (impl : ComputeNodeImpl) (index : Nat)
    (g1 g2 : RenderGraphContext) (dev : RenderDevice)
    (info : BindResourceCreationInfo) (d : BindResourceCreationDescriptor)
    (r1 : OwnBindResource) (impl1 : ComputeNodeImpl) (dev1 : RenderDevice)
    (hget : impl.bind_resource_info.get? index = some info)
    (hdir : info.direction = .Output d)
    (hfresh : cacheFresh impl dev)
    (h1 : impl.get_output_resource index g1 dev = (.ok r1, impl1, dev1)) :
    mapLookup impl1.bind_resource_cache index = some (d.into_static g1, r1) ∧
    (d.into_static g2 = d.into_static g1 →
      impl1.get_output_resource index g2 dev1 = (.ok r1, impl1, dev1)) ∧
    (d.into_static g2 ≠ d.into_static g1 →
      impl1.get_output_resource index g2 dev1
          = (.ok ((d.into_static g2).create_resource dev1).1,
             { impl1 with bind_resource_cache := (mapInsert impl1.bind_resource_cache
                index (d.into_static g2, ((d.into_static g2).create_resource dev1).1)) },
             ((d.into_static g2).create_resource dev1).2) ∧
        ((d.into_static g2).create_resource dev1).1 ≠ r1 ∧
        (∀ dx rx, mapLookup (mapInsert impl1.bind_resource_cache index
              (d.into_static g2, ((d.into_static g2).create_resource dev1).1)) index
            = some (dx, rx) → rx ≠ r1)) := by
  rw [get_output_resource_eq impl index g1 dev info d hget hdir] at h1
  have key : impl1.bind_resource_info = impl.bind_resource_info ∧
      mapLookup impl1.bind_resource_cache index = some (d.into_static g1, r1) ∧
      (∀ i ∈ r1.ids, i < dev1.next_id) := by
    cases hl : mapLookup impl.bind_resource_cache index with
    | some p =>
      obtain ⟨cd, cr⟩ := p
      rw [hl] at h1
      dsimp only at h1
      by_cases hcd : cd = d.into_static g1
      · rw [if_pos hcd] at h1
        injection h1 with ha hrest
        injection hrest with hb hc
        injection ha with har
        subst hb
        subst hc
        subst har
        subst hcd
        exact ⟨rfl, hl, hfresh index _ _ hl⟩
      · rw [if_neg hcd] at h1
        injection h1 with ha hrest
        injection hrest with hb hc
        injection ha with har
        subst hb
        subst hc
        subst har
        refine ⟨rfl, mapLookup_mapInsert_self _ _ _, ?_⟩
        intro i hi
        exact (((create_resource_ids (d.into_static g1) dev).1) i hi).2
    | none =>
      rw [hl] at h1
      dsimp only at h1
      injection h1 with ha hrest
      injection hrest with hb hc
      injection ha with har
      subst hb
      subst hc
      subst har
      refine ⟨rfl, mapLookup_mapInsert_self _ _ _, ?_⟩
      intro i hi
      exact (((create_resource_ids (d.into_static g1) dev).1) i hi).2
  obtain ⟨hinfo1, hcache1, hfresh1⟩ := key
  have hget1 : impl1.bind_resource_info.get? index = some info := by
    rw [hinfo1]
    exact hget
  have hne2 : ∀ h2ne : d.into_static g2 ≠ d.into_static g1,
      ((d.into_static g2).create_resource dev1).1 ≠ r1 := by
    intro _
    exact resource_ne_of_ids r1 _ dev1.next_id hfresh1
      (fun i hi => (((create_resource_ids (d.into_static g2) dev1).1) i hi).1)
  refine ⟨hcache1, ?_, ?_⟩
  · intro heq
    simp [get_output_resource_eq impl1 index g2 dev1 info d hget1 hdir, hcache1, heq]
  · intro hne
    refine ⟨?_, hne2 hne, ?_⟩
    · simp [get_output_resource_eq impl1 index g2 dev1 info d hget1 hdir, hcache1,
        Ne.symm hne]
    · intro dx rx hx
      rw [mapLookup_mapInsert_self] at hx
      injection hx with hpair
      injection hpair with hdx hrx
      subst hrx
      exact hne2 hne

/-- Witness for claim C7: the second lookup with the same resolved
descriptor is a cache hit returning the stored instance unchanged. -/
theorem get_output_resource_cache_spec_witness :
    ComputeNodeImpl.get_output_resource outputOnlyImplCached 0 emptyGraphContext
        { next_id := 1 }
      = (.ok firstCreatedResource, outputOnlyImplCached, { next_id := 1 }) :=
  (get_output_resource_cache_spec outputOnlyImpl 0 emptyGraphContext
      emptyGraphContext { next_id := 0 }
      { name := "out", binding := 0, direction := .Output staticOutDescriptor }
      staticOutDescriptor firstCreatedResource outputOnlyImplCached { next_id := 1 }
      rfl rfl (by intro k dd r h; simp [outputOnlyImpl, mapLookup] at h) rfl).2.1 rfl

theorem gatherInputs_ok (graph : RenderGraphContext) (slots : List SlotInfo)
    (acc : List (String × SlotValue))
    (h : ∀ s ∈ slots, (mapLookup graph.inputs s.name).isSome) :
    ∃ m, gatherInputs graph slots acc = .ok m ∧
      ∀ name, mapLookup m name =
        if name ∈ slots.map SlotInfo.name then mapLookup graph.inputs name
        else mapLookup acc name := by
  induction slots generalizing acc with
  | nil => exact ⟨acc, rfl, by simp⟩
  | cons s rest ih =>
    have hs := h s (List.mem_cons_self s rest)
    obtain ⟨v, hv⟩ := Option.isSome_iff_exists.mp hs
    have hrest : ∀ s' ∈ rest, (mapLookup graph.inputs s'.name).isSome :=
      fun s' hs' => h s' (List.mem_cons_of_mem _ hs')
    obtain ⟨m, hm, hlook⟩ := ih (mapInsert acc s.name v) hrest
    refine ⟨m, ?_, ?_⟩
    · simp [gatherInputs, RenderGraphContext.get_input, hv, hm]
    · intro name
      rw [hlook name]
      by_cases hr : name ∈ rest.map SlotInfo.name
      · simp [hr]
      · by_cases hsn : name = s.name
        · subst hsn
          simp [hr, mapLookup_mapInsert_self, hv]
        · simp [hr, hsn, mapLookup_mapInsert_ne _ _ _ _ hsn]

theorem collectInputValues_ok (graph_name : String) (slots : List SlotInfo)
    (m : List (String × SlotValue)) (index : Nat)
    (hpres : ∀ s ∈ slots, (mapLookup m s.name).isSome)
    (hnodup : (slots.map SlotInfo.name).Nodup) :
    ∃ vs, collectInputValues graph_name index slots m = .ok vs := by
  induction slots generalizing m index with
  | nil => exact ⟨[], rfl⟩
  | cons s rest ih =>
    obtain ⟨v, hv⟩ :=
      Option.isSome_iff_exists.mp (hpres s (List.mem_cons_self s rest))
    have hnodup' : (s.name :: rest.map SlotInfo.name).Nodup := by
      simpa using hnodup
    have hnd := List.nodup_cons.mp hnodup'
    have hpres' : ∀ s' ∈ rest, (mapLookup (mapRemove m s.name) s'.name).isSome := by
      intro s' hs'
      rw [mapLookup_mapRemove]
      have hne : s'.name ≠ s.name := by
        intro he
        exact hnd.1 (he ▸ List.mem_map_of_mem SlotInfo.name hs')
      rw [if_neg hne]
      exact hpres s' (List.mem_cons_of_mem _ hs')
    obtain ⟨vs, hvs⟩ := ih (mapRemove m s.name) (index + 1) hpres' hnd.2
    exact ⟨v :: vs, by simp [collectInputValues, hv, hvs]⟩

/-- Claim C6: for a deployed runner node (its sub-graph registered under its
name, its declared inputs equal to the sub-graph's input slots, those slot
names distinct, and every declared input available in the graph context):
with a `Manual` trigger that is set, running the node twice executes the
sub-graph exactly once — the first run invokes it and clears the flag, the
second run skips with no side effects and returns `Ok`; with an `Always`
trigger, every run executes the sub-graph. -/
theorem runner_manual_trigger_once (node : SubGraphRunnerNode)
    (render_graph : RenderGraphModel) (graph : RenderGraphContext)
    (g : RenderSubGraph)
    (hfound : render_graph.get_sub_graph node.sub_graph_name = some g)
    (hslots : node.node_inputs = g.input_slots)
    (hnodup : (g.input_slots.map SlotInfo.name).Nodup)
    (hctx : ∀ s ∈ g.input_slots, (mapLookup graph.inputs s.name).isSome) :
    (node.trigger = .Manual true →
      ∃ vs, node.run render_graph graph
          = { result := .ok (), trigger := .Manual false,
              ran_sub_graph := some vs } ∧
        SubGraphRunnerNode.run { node with trigger := .Manual false }
            render_graph graph
          = { result := .ok (), trigger := .Manual false,
              ran_sub_graph := none }) ∧
    (node.trigger = .Always →
      ∃ vs, node.run render_graph graph
          = { result := .ok (), trigger := .Always,
              ran_sub_graph := some vs }) := by
  have hbody : ∀ t, ∃ vs, node.run_body render_graph graph t
      = { result := .ok (), trigger := t, ran_sub_graph := some vs } := by
    intro t
    obtain ⟨m, hm, hlook⟩ :=
      gatherInputs_ok graph node.node_inputs [] (by rw [hslots]; exact hctx)
    have hpres : ∀ s ∈ g.input_slots, (mapLookup m s.name).isSome := by
      intro s hs
      rw [hlook s.name]
      have hmem : s.name ∈ node.node_inputs.map SlotInfo.name := by
        rw [hslots]
        exact List.mem_map_of_mem _ hs
      rw [if_pos hmem]
      exact hctx s hs
    obtain ⟨vs, hvs⟩ :=
      collectInputValues_ok node.sub_graph_name g.input_slots m 0 hpres hnodup
    exact ⟨vs, by simp [SubGraphRunnerNode.run_body, hm, hfound, hvs]⟩
  constructor
  · intro ht
    obtain ⟨vs, hvs⟩ := hbody (.Manual false)
    refine ⟨vs, ?_, ?_⟩
    · simp [SubGraphRunnerNode.run, ht, hvs]
    · simp [SubGraphRunnerNode.run]
  · intro ht
    obtain ⟨vs, hvs⟩ := hbody .Always
    exact ⟨vs, by simp [SubGraphRunnerNode.run, ht, hvs]⟩

/-- Witness for claim C6 at a concrete deployed runner node: the first run
with the flag set invokes the sub-graph, the second run skips. -/
theorem runner_manual_trigger_once_witness :
    (SubGraphRunnerNode.run manualRunnerNode runnerRenderGraph
        runnerContext).ran_sub_graph.isSome = true ∧
      SubGraphRunnerNode.run { manualRunnerNode with trigger := .Manual false }
          runnerRenderGraph runnerContext
        = { result := .ok (), trigger := .Manual false, ran_sub_graph := none } := by
  obtain ⟨vs, h1, h2⟩ :=
    (runner_manual_trigger_once manualRunnerNode runnerRenderGraph runnerContext
        runnerSubGraph (by decide) rfl (by decide) (by decide)).1 rfl
  constructor
  · rw [h1]
    rfl
  · exact h2
